import Mathlib

/-
Verification of the go-ra router-advertisement daemon configuration layer
(config.go) and of the daemon orchestration behaviour described in the
design document.

The configuration structs are embedded one field per Go field.  Go's
"[]*T" slices are embedded as "Option (List (Option T))": the outer
Option is the nil-ness of the slice itself, the inner Option the nil-ness
of each element.  Go "*int" fields are "Option Int".  Machine integers of
config.go are Go int (64-bit); all values handled here are far below the
overflow bound, so they are embedded as Int.
-/

/-- Embeds Go struct PrefixConfig of config.go.  The Go field named
Prefix is embedded as cidrStr (the Go field name cannot be used here). -/
structure PrefixConfig where
  cidrStr : String
  onLink : Bool
  autonomous : Bool
  validLifetimeSeconds : Option Int
  preferredLifetimeSeconds : Option Int
deriving DecidableEq

/-- Embeds Go struct InterfaceConfig of config.go. -/
structure InterfaceConfig where
  name : String
  raIntervalMilliseconds : Int
  currentHopLimit : Int
  managed : Bool
  other : Bool
  routerLifetimeSeconds : Int
  reachableTimeMilliseconds : Int
  retransmitTimeMilliseconds : Int
  prefixes : Option (List (Option PrefixConfig))
deriving DecidableEq

/-- Embeds Go struct Config of config.go. -/
structure Config where
  interfaces : Option (List (Option InterfaceConfig))
deriving DecidableEq

/-
Model of Go net/netip used by the overlap validator in config.go.  A
netip.Prefix value is a 128-bit address (as a Nat) plus a bit count.
Equality of two parsed prefixes is structural equality of both fields,
exactly as for netip.Prefix values parsed without a zone.
-/

/-- Model of a Go netip.Prefix holding an IPv6 address. -/
structure Cidr where
  addr : Nat
  bits : Nat
deriving DecidableEq

/-- addr with everything below the first maskBits bits cleared
(addresses are 128 bits wide). -/
def maskAddr (a : Nat) (maskBits : Nat) : Nat :=
  (a >>> (128 - maskBits)) <<< (128 - maskBits)

/-- Model of netip.Prefix.Overlaps for two IPv6 prefixes: they overlap
when they agree on the shorter of the two masks. -/
def Cidr.overlaps (p q : Cidr) : Bool :=
  maskAddr p.addr (min p.bits q.bits) == maskAddr q.addr (min p.bits q.bits)

/-
Model of netip.ParsePrefix restricted to the textual IPv6 forms
(hexadecimal groups and the double-colon ellipsis).  Forms with an
embedded dotted IPv4 tail, a zone suffix or an IPv4 address fail to
parse, as here every character must be a hex digit, a colon or the
slash; netip's extra forms are outside this model and are not used by
any input considered below.  The validator's cidrv6 constraint is the
same parse plus the check that the address is not IPv4-mapped, which
matches net.ParseCIDR followed by To4() == nil on these forms.
-/

/-- Numeric value of a hexadecimal digit character. -/
def hexVal (c : Char) : Option Nat :=
  if '0' ≤ c ∧ c ≤ '9' then some (c.toNat - 48)
  else if 'a' ≤ c ∧ c ≤ 'f' then some (c.toNat - 87)
  else if 'A' ≤ c ∧ c ≤ 'F' then some (c.toNat - 55)
  else none

/-- Numeric value of a decimal digit character. -/
def digitVal (c : Char) : Option Nat :=
  if '0' ≤ c ∧ c ≤ '9' then some (c.toNat - 48) else none

/-- Split a character list at every occurrence of sep. -/
def splitOnChar (sep : Char) : List Char → List (List Char)
  | [] => [[]]
  | c :: rest =>
    let r := splitOnChar sep rest
    if c = sep then [] :: r
    else
      match r with
      | [] => [[c]]
      | g :: gs => (c :: g) :: gs

/-- One IPv6 group: one to four hexadecimal digits. -/
def parseGroup (g : List Char) : Option Nat :=
  if g.length = 0 ∨ 4 < g.length then none
  else
    g.foldl (fun acc c =>
      match acc, hexVal c with
      | some a, some v => some (a * 16 + v)
      | _, _ => none) (some 0)

/-- Parse every group of a list, failing if any fails. -/
def mapGroups : List (List Char) → Option (List Nat)
  | [] => some []
  | g :: gs =>
    match parseGroup g, mapGroups gs with
    | some v, some vs => some (v :: vs)
    | _, _ => none

/-- Big-endian combination of 16-bit groups into one Nat. -/
def groupsToNat (gs : List Nat) : Nat :=
  gs.foldl (fun acc g => acc * 65536 + g) 0

/-- Address from the groups left and right of the ellipsis; the ellipsis
must stand for at least one zero group. -/
def ipv6OfParts (left right : List (List Char)) : Option Nat :=
  if left.length + right.length ≤ 7 then
    match mapGroups left, mapGroups right with
    | some ls, some rs =>
        some (groupsToNat (ls ++ List.replicate (8 - ls.length - rs.length) 0 ++ rs))
    | _, _ => none
  else none

/-- Model of the IPv6 textual address parser of net/netip (hex forms). -/
def parseIPv6 (cs : List Char) : Option Nat :=
  let parts := splitOnChar ':' cs
  if parts = [[], [], []] then some 0
  else
    let pre := parts.takeWhile (fun g => !g.isEmpty)
    let rest := parts.dropWhile (fun g => !g.isEmpty)
    match rest with
    | [] => if parts.length = 8 then (mapGroups parts).map groupsToNat else none
    | [] :: tail =>
      match pre, tail with
      | [], [] :: tail2 =>
          if tail2.any (fun g => g.isEmpty) then none
          else if tail2.isEmpty then none
          else ipv6OfParts [] tail2
      | [], _ => none
      | _ :: _, [[]] => ipv6OfParts pre []
      | _ :: _, _ =>
          if tail.any (fun g => g.isEmpty) then none
          else if tail.isEmpty then none
          else ipv6OfParts pre tail
    | _ :: _ => none

/-- Decimal number from a character list. -/
def decNat (cs : List Char) : Option Nat :=
  cs.foldl (fun acc ch =>
    match acc, digitVal ch with
    | some a, some v => some (a * 10 + v)
    | _, _ => none) (some 0)

/-- Model of the bit-count parser of netip.ParsePrefix: plain decimal,
no leading zero (unless the whole string is one digit), at most 128. -/
def parseBits (cs : List Char) : Option Nat :=
  match cs with
  | [] => none
  | [c] => digitVal c
  | c :: _ =>
      if c = '0' then none
      else
        match decNat cs with
        | some n => if n ≤ 128 then some n else none
        | none => none

/-- Model of netip.ParsePrefix on IPv6 text: address, slash, bits.
netip splits at the last slash; requiring exactly one slash is
equivalent because an address containing a slash never parses. -/
def parseCidr (s : String) : Option Cidr :=
  match splitOnChar '/' s.toList with
  | [a, b] =>
      match parseIPv6 a, parseBits b with
      | some addr, some bits => some { addr := addr, bits := bits }
      | _, _ => none
  | _ => none

/-- True when the 128-bit address is IPv4-mapped (::ffff:0:0/96), the
case in which Go's To4() is non-nil and cidrv6 therefore fails. -/
def isV4Mapped (a : Nat) : Bool :=
  a >>> 32 == 65535

/-- Model of the validator cidrv6 constraint of config.go: the string
parses as a prefix and the address is a genuine IPv6 address. -/
def cidrv6Ok (s : String) : Bool :=
  (parseCidr s).elim false (fun p => !(isV4Mapped p.addr))

example : parseCidr "2001:db8::/64" = some { addr := 0x20010db8 <<< 96, bits := 64 } := by decide
example : parseCidr "::1/128" = some { addr := 1, bits := 128 } := by decide
example : parseCidr "fe80::/10" = some { addr := 0xfe80 <<< 112, bits := 10 } := by decide
example : parseCidr "2001:db8::1/64" = some { addr := (0x20010db8 <<< 96) + 1, bits := 64 } := by decide
example : parseCidr "" = none := by decide
example : parseCidr "10.0.0.0/8" = none := by decide
example : parseCidr "2001:db8::/064" = none := by decide
example : cidrv6Ok "2001:db8::/64" = true := by decide
example : Cidr.overlaps { addr := 0x20010db8 <<< 96, bits := 64 } { addr := 0x20010db8 <<< 96, bits := 64 } = true := by decide

deriving instance DecidableEq for Except

/-
Model of the go-playground/validator v10 run configured by the struct
tags of config.go plus the two custom constraints registered in
defaultAndValidate.  Validation of a field evaluates its tags in order
and stops at that field's first failing tag; errors of distinct fields
accumulate.  The result is the list of field errors; Go's
validate.Struct returns a non-nil error exactly when this list is
non-empty.
-/

/-- One field error of the validator run. -/
inductive VErr where
  | required (path : String)
  | gteViolation (path : String)
  | lteViolation (path : String)
  | ltefieldViolation (path : String)
  | cidrv6Violation (path : String)
  | uniqueNameViolation (path : String)
  | overlapViolation (path : String)
deriving DecidableEq

/-- Tag chain of InterfaceConfig.Name: required. -/
def checkName (path : String) (s : String) : List VErr :=
  if s = "" then [VErr.required path] else []

/-- Tag chain of RAIntervalMilliseconds: required,gte=70,lte=1800000. -/
def checkRAInterval (path : String) (v : Int) : List VErr :=
  if v = 0 then [VErr.required path]
  else if v < 70 then [VErr.gteViolation path]
  else if 1800000 < v then [VErr.lteViolation path]
  else []

/-- gte=lo,lte=hi chain on an Int field. -/
def checkRange (path : String) (lo hi v : Int) : List VErr :=
  if v < lo then [VErr.gteViolation path]
  else if hi < v then [VErr.lteViolation path]
  else []

/-- Tag chain of PrefixConfig.ValidLifetimeSeconds:
required,gte=0,lte=4294967295 on a *int field (required = non-nil). -/
def checkValidLifetime (path : String) : Option Int → List VErr
  | none => [VErr.required path]
  | some v => checkRange path 0 4294967295 v

/-- Tag chain of PrefixConfig.PreferredLifetimeSeconds:
required,gte=0,ltefield=ValidLifetimeSeconds.  ltefield fails when the
referenced field is a nil pointer. -/
def checkPreferredLifetime (path : String) : Option Int → Option Int → List VErr
  | none, _ => [VErr.required path]
  | some p, none =>
      if p < 0 then [VErr.gteViolation path] else [VErr.ltefieldViolation path]
  | some p, some v =>
      if p < 0 then [VErr.gteViolation path]
      else if v < p then [VErr.ltefieldViolation path]
      else []

/-- Field errors of one PrefixConfig struct. -/
def checkPrefixEntry (path : String) (pc : PrefixConfig) : List VErr :=
  (if pc.cidrStr = "" then [VErr.required (path ++ ".Prefix")]
   else if cidrv6Ok pc.cidrStr then [] else [VErr.cidrv6Violation (path ++ ".Prefix")]) ++
  checkValidLifetime (path ++ ".ValidLifetimeSeconds") pc.validLifetimeSeconds ++
  checkPreferredLifetime (path ++ ".PreferredLifetimeSeconds")
    pc.preferredLifetimeSeconds pc.validLifetimeSeconds

/-- The parseable prefixes of the slice, in order, as collected by the
custom validator non_nil_and_non_overlapping_prefix; none when some
slice element is a nil pointer (the validator then returns false).
Unparseable prefix strings are skipped there (cidrv6 catches them). -/
def collectCidrs : List (Option PrefixConfig) → Option (List Cidr)
  | [] => some []
  | none :: _ => none
  | some pc :: rest =>
      match collectCidrs rest with
      | none => none
      | some ps =>
          match parseCidr pc.cidrStr with
          | none => some ps
          | some p => some (p :: ps)

/-- The double loop of non_nil_and_non_overlapping_prefix: some pair of
distinct prefix values overlaps.  The p0 != p1 guard of the Go loop is
kept as stated there: equal prefix values are never compared. -/
def hasOverlappingPair (ps : List Cidr) : Bool :=
  ps.any (fun p0 => ps.any (fun p1 => if p0 = p1 then false else p0.overlaps p1))

/-- dive,required over the prefix slice plus the nested struct checks,
with paths indexed from i. -/
def checkPrefixElems (path : String) (i : Nat) : List (Option PrefixConfig) → List VErr
  | [] => []
  | none :: rest =>
      VErr.required (path ++ "[" ++ toString i ++ "]") :: checkPrefixElems path (i + 1) rest
  | some pc :: rest =>
      checkPrefixEntry (path ++ "[" ++ toString i ++ "]") pc ++ checkPrefixElems path (i + 1) rest

/-- Tag chain of InterfaceConfig.Prefixes:
non_nil_and_non_overlapping_prefix,dive,required.  A nil slice passes
the custom constraint (its loop body never runs) and dive sees no
elements. -/
def checkPrefixesAux (path : String) (elems : List (Option PrefixConfig)) :
    Option (List Cidr) → List VErr
  | none => [VErr.overlapViolation path]
  | some cs =>
      if hasOverlappingPair cs then [VErr.overlapViolation path]
      else checkPrefixElems path 0 elems

def checkPrefixesField (path : String) (ps : Option (List (Option PrefixConfig))) : List VErr :=
  checkPrefixesAux path (ps.getD []) (collectCidrs (ps.getD []))

/-- Field errors of one InterfaceConfig struct. -/
def checkIfaceFields (path : String) (ic : InterfaceConfig) : List VErr :=
  checkName (path ++ ".Name") ic.name ++
  checkRAInterval (path ++ ".RAIntervalMilliseconds") ic.raIntervalMilliseconds ++
  checkRange (path ++ ".CurrentHopLimit") 0 255 ic.currentHopLimit ++
  checkRange (path ++ ".RouterLifetimeSeconds") 0 65535 ic.routerLifetimeSeconds ++
  checkRange (path ++ ".ReachableTimeMilliseconds") 0 4294967295 ic.reachableTimeMilliseconds ++
  checkRange (path ++ ".RetransmitTimeMilliseconds") 0 4294967295 ic.retransmitTimeMilliseconds ++
  checkPrefixesField (path ++ ".Prefixes") ic.prefixes

/-- The custom validator non_nil_and_unique_name of config.go: walks the
slice, fails on a nil element or on a Name already seen. -/
def nonNilAndUniqueName : List (Option InterfaceConfig) → List String → Bool
  | [], _ => true
  | none :: _, _ => false
  | some ic :: rest, seen =>
      if seen.contains ic.name then false
      else nonNilAndUniqueName rest (ic.name :: seen)

/-- dive,required over the interface slice plus the nested struct
checks, with paths indexed from i. -/
def checkIfaceElems (i : Nat) : List (Option InterfaceConfig) → List VErr
  | [] => []
  | none :: rest =>
      VErr.required ("interfaces[" ++ toString i ++ "]") :: checkIfaceElems (i + 1) rest
  | some ic :: rest =>
      checkIfaceFields ("interfaces[" ++ toString i ++ "]") ic ++ checkIfaceElems (i + 1) rest

/-- The Interfaces field of Config under its tag chain
required,non_nil_and_unique_name,dive,required; the chain stops at its
first failing tag. -/
def validateInterfaces : Option (List (Option InterfaceConfig)) → List VErr
  | none => [VErr.required "interfaces"]
  | some l =>
      if nonNilAndUniqueName l [] then checkIfaceElems 0 l
      else [VErr.uniqueNameViolation "interfaces"]

/-- The whole validator run on Config. -/
def validateConfig (c : Config) : List VErr :=
  validateInterfaces c.interfaces

/-
Model of creasty/defaults as driven by the default tags of config.go:
defaults.Set replaces only zero-valued fields (a zero int with a default
tag; a nil pointer with a default tag); explicitly set values, including
a non-nil pointer to zero, are left alone.  It recurses through slices
into non-nil struct elements; nil elements have no tags and stay nil.
-/

/-- Defaults of PrefixConfig: validLifetimeSeconds 2592000,
preferredLifetimeSeconds 604800, filled only when the pointer is nil. -/
def defaultPrefixConfig (pc : PrefixConfig) : PrefixConfig :=
  { pc with
    validLifetimeSeconds := some (pc.validLifetimeSeconds.getD 2592000),
    preferredLifetimeSeconds := some (pc.preferredLifetimeSeconds.getD 604800) }

/-- Defaults of InterfaceConfig: raIntervalMilliseconds 600000 when
zero (currentHopLimit's default tag is 0, a no-op), and recursion into
the prefix slice. -/
def defaultInterfaceConfig (ic : InterfaceConfig) : InterfaceConfig :=
  { ic with
    raIntervalMilliseconds :=
      if ic.raIntervalMilliseconds = 0 then 600000 else ic.raIntervalMilliseconds,
    prefixes := ic.prefixes.map (fun l => l.map (Option.map defaultPrefixConfig)) }

/-- defaults.Set on the whole Config. -/
def applyDefaults (c : Config) : Config :=
  { interfaces := c.interfaces.map (fun l => l.map (Option.map defaultInterfaceConfig)) }

/-- Embeds Config.defaultAndValidate of config.go: fill defaults, then
validate; a non-empty error list is returned as the error, otherwise
the (defaulted) configuration is accepted.  The Go method mutates its
receiver and returns only the error; the defaulted receiver is made
explicit here as the ok value. -/
def defaultAndValidate (c : Config) : Except (List VErr) Config :=
  if validateConfig (applyDefaults c) = [] then Except.ok (applyDefaults c)
  else Except.error (validateConfig (applyDefaults c))

/-
The three parse functions of config.go delegate decoding to external
libraries (encoding/json, gopkg.in/yaml.v3) and file opening to os.Open.
Each external call is embedded as the outcome it produced: an Except
value standing for the decoder's (or os.Open's) result.  The functions
below are the entire remaining logic of the Go functions.
-/

/-- Embeds ParseConfigJSON of config.go over the decoder outcome. -/
def ParseConfigJSON (decoded : Except String Config) : Except String Config :=
  match decoded with
  | Except.error e => Except.error e
  | Except.ok c => Except.ok c

/-- Embeds ParseConfigYAML of config.go over the decoder outcome. -/
def ParseConfigYAML (decoded : Except String Config) : Except String Config :=
  match decoded with
  | Except.error e => Except.error e
  | Except.ok c => Except.ok c

/-- Embeds ParseConfigYAMLFile of config.go: os.Open's outcome first,
then ParseConfigYAML on the decoder outcome of the opened file. -/
def ParseConfigYAMLFile (opened : Except String (Except String Config)) : Except String Config :=
  match opened with
  | Except.error e => Except.error e
  | Except.ok decoded => ParseConfigYAML decoded

example :
    defaultAndValidate
      { interfaces := some [some
        { name := "net0", raIntervalMilliseconds := 100, currentHopLimit := 0,
          managed := false, other := false, routerLifetimeSeconds := 0,
          reachableTimeMilliseconds := 0, retransmitTimeMilliseconds := 0,
          prefixes := none }] } =
    Except.ok
      { interfaces := some [some
        { name := "net0", raIntervalMilliseconds := 100, currentHopLimit := 0,
          managed := false, other := false, routerLifetimeSeconds := 0,
          reachableTimeMilliseconds := 0, retransmitTimeMilliseconds := 0,
          prefixes := none }] } := by decide

example :
    defaultAndValidate { interfaces := none } = Except.error [VErr.required "interfaces"] := by
  decide

example :
    defaultAndValidate
      { interfaces := some [some
        { name := "net0", raIntervalMilliseconds := 100, currentHopLimit := 0,
          managed := false, other := false, routerLifetimeSeconds := 0,
          reachableTimeMilliseconds := 0, retransmitTimeMilliseconds := 0,
          prefixes := some [some
            { cidrStr := "2001:db8::/64", onLink := true, autonomous := true,
              validLifetimeSeconds := none, preferredLifetimeSeconds := none },
            some
            { cidrStr := "2001:db8::/80", onLink := true, autonomous := true,
              validLifetimeSeconds := none, preferredLifetimeSeconds := none }] }] } =
    Except.error [VErr.overlapViolation "interfaces[0].Prefixes"] := by decide

/-
Helper lemmas about the validation pipeline.
-/

theorem listAppend_ne_nil_left {α : Type} {as bs : List α} (h : as ≠ []) : as ++ bs ≠ [] := by
  simp only [ne_eq, List.append_eq_nil]
  exact fun hcon => h hcon.1

theorem listAppend_ne_nil_right {α : Type} {as bs : List α} (h : bs ≠ []) : as ++ bs ≠ [] := by
  simp only [ne_eq, List.append_eq_nil]
  exact fun hcon => h hcon.2

theorem checkRAInterval_ne_nil (path : String) (v : Int) (h0 : v ≠ 0)
    (hout : v < 70 ∨ 1800000 < v) : checkRAInterval path v ≠ [] := by
  unfold checkRAInterval
  rcases hout with hlt | hgt
  · rw [if_neg h0, if_pos hlt]
    simp
  · rw [if_neg h0, if_neg (by omega), if_pos hgt]
    simp

theorem checkRAInterval_eq_nil (path : String) (v : Int) (hlo : 70 ≤ v)
    (hhi : v ≤ 1800000) : checkRAInterval path v = [] := by
  unfold checkRAInterval
  rw [if_neg (by omega), if_neg (by omega), if_neg (by omega)]

theorem checkPreferredLifetime_ne_nil (path : String) (p v : Int) (hvp : v < p) :
    checkPreferredLifetime path (some p) (some v) ≠ [] := by
  simp only [checkPreferredLifetime]
  by_cases hp : p < 0
  · rw [if_pos hp]; simp
  · rw [if_neg hp, if_pos hvp]; simp

theorem checkValidLifetime_eq_nil (path : String) (v : Int) (h0 : 0 ≤ v)
    (hub : v ≤ 4294967295) : checkValidLifetime path (some v) = [] := by
  simp only [checkValidLifetime, checkRange]
  rw [if_neg (by omega), if_neg (by omega)]

theorem checkPreferredLifetime_eq_nil (path : String) (p v : Int) (h0 : 0 ≤ p)
    (hpv : p ≤ v) : checkPreferredLifetime path (some p) (some v) = [] := by
  simp only [checkPreferredLifetime]
  rw [if_neg (by omega), if_neg (by omega)]

theorem checkPrefixEntry_ne_nil_of_pref (path : String) (pc : PrefixConfig)
    (h : checkPreferredLifetime (path ++ ".PreferredLifetimeSeconds")
      pc.preferredLifetimeSeconds pc.validLifetimeSeconds ≠ []) :
    checkPrefixEntry path pc ≠ [] := by
  unfold checkPrefixEntry
  exact listAppend_ne_nil_right h

theorem checkPrefixElems_ne_nil (pc : PrefixConfig)
    (h : ∀ q, checkPrefixEntry q pc ≠ []) :
    ∀ (pl : List (Option PrefixConfig)) (path : String) (i : Nat),
      some pc ∈ pl → checkPrefixElems path i pl ≠ []
  | [], _, _, hm => absurd hm (List.not_mem_nil _)
  | none :: rest, path, i, _ => by
      unfold checkPrefixElems
      simp
  | some pc2 :: rest, path, i, hm => by
      unfold checkPrefixElems
      rcases List.mem_cons.mp hm with heq | hrest
      · apply listAppend_ne_nil_left
        rw [Option.some_inj] at heq
        rw [← heq]
        exact h _
      · exact listAppend_ne_nil_right
          (checkPrefixElems_ne_nil pc h rest path (i + 1) hrest)

theorem checkPrefixesField_ne_nil (path : String) (pl : List (Option PrefixConfig))
    (pc : PrefixConfig) (hm : some pc ∈ pl) (h : ∀ q, checkPrefixEntry q pc ≠ []) :
    checkPrefixesField path (some pl) ≠ [] := by
  unfold checkPrefixesField
  simp only [Option.getD_some]
  cases hc : collectCidrs pl with
  | none => simp [checkPrefixesAux]
  | some cs =>
      simp only [checkPrefixesAux]
      by_cases hov : hasOverlappingPair cs
      · rw [if_pos hov]; simp
      · rw [if_neg hov]
        exact checkPrefixElems_ne_nil pc h pl path 0 hm

theorem checkIfaceFields_ne_nil_of_interval (path : String) (ic : InterfaceConfig)
    (h : checkRAInterval (path ++ ".RAIntervalMilliseconds") ic.raIntervalMilliseconds ≠ []) :
    checkIfaceFields path ic ≠ [] := by
  intro hnil
  unfold checkIfaceFields at hnil
  simp only [List.append_eq_nil] at hnil
  exact h hnil.1.1.1.1.1.2

theorem checkIfaceFields_ne_nil_of_prefixes (path : String) (ic : InterfaceConfig)
    (h : checkPrefixesField (path ++ ".Prefixes") ic.prefixes ≠ []) :
    checkIfaceFields path ic ≠ [] := by
  intro hnil
  unfold checkIfaceFields at hnil
  simp only [List.append_eq_nil] at hnil
  exact h hnil.2

theorem checkIfaceElems_ne_nil (ic : InterfaceConfig)
    (h : ∀ q, checkIfaceFields q ic ≠ []) :
    ∀ (l : List (Option InterfaceConfig)) (i : Nat),
      some ic ∈ l → checkIfaceElems i l ≠ []
  | [], _, hm => absurd hm (List.not_mem_nil _)
  | none :: rest, i, _ => by
      unfold checkIfaceElems
      simp
  | some ic2 :: rest, i, hm => by
      unfold checkIfaceElems
      rcases List.mem_cons.mp hm with heq | hrest
      · apply listAppend_ne_nil_left
        rw [Option.some_inj] at heq
        rw [← heq]
        exact h _
      · exact listAppend_ne_nil_right (checkIfaceElems_ne_nil ic h rest (i + 1) hrest)

theorem validateConfig_ne_nil_of_iface (c : Config) (l : List (Option InterfaceConfig))
    (hl : c.interfaces = some l) (ic : InterfaceConfig) (hm : some ic ∈ l)
    (h : ∀ q, checkIfaceFields q ic ≠ []) : validateConfig c ≠ [] := by
  unfold validateConfig
  rw [hl]
  simp only [validateInterfaces]
  by_cases hu : nonNilAndUniqueName l []
  · rw [if_pos hu]
    exact checkIfaceElems_ne_nil ic h l 0 hm
  · rw [if_neg hu]
    simp

theorem defaultAndValidate_error_of_validate (c : Config)
    (h : validateConfig (applyDefaults c) ≠ []) :
    ∃ es, defaultAndValidate c = Except.error es := by
  refine ⟨validateConfig (applyDefaults c), ?_⟩
  unfold defaultAndValidate
  rw [if_neg h]

theorem defaultAndValidate_ok_of_validate (c : Config)
    (h : validateConfig (applyDefaults c) = []) :
    defaultAndValidate c = Except.ok (applyDefaults c) := by
  unfold defaultAndValidate
  rw [if_pos h]

theorem applyDefaults_interfaces (c : Config) (l : List (Option InterfaceConfig))
    (hl : c.interfaces = some l) :
    (applyDefaults c).interfaces = some (l.map (Option.map defaultInterfaceConfig)) := by
  unfold applyDefaults
  rw [hl]
  rfl

theorem defaultInterfaceConfig_prefixes (ic : InterfaceConfig)
    (pl : List (Option PrefixConfig)) (hpl : ic.prefixes = some pl) :
    (defaultInterfaceConfig ic).prefixes = some (pl.map (Option.map defaultPrefixConfig)) := by
  unfold defaultInterfaceConfig
  rw [hpl]
  rfl

theorem defaultInterfaceConfig_interval_ne_zero (ic : InterfaceConfig)
    (h : ic.raIntervalMilliseconds ≠ 0) :
    (defaultInterfaceConfig ic).raIntervalMilliseconds = ic.raIntervalMilliseconds := by
  unfold defaultInterfaceConfig
  simp only [if_neg h]

theorem defaultPrefixConfig_pref (pc : PrefixConfig) (p : Int)
    (hp : pc.preferredLifetimeSeconds = some p) :
    (defaultPrefixConfig pc).preferredLifetimeSeconds = some p := by
  unfold defaultPrefixConfig
  rw [hp]
  rfl

theorem defaultPrefixConfig_valid (pc : PrefixConfig) (v : Int)
    (hv : pc.validLifetimeSeconds = some v) :
    (defaultPrefixConfig pc).validLifetimeSeconds = some v := by
  unfold defaultPrefixConfig
  rw [hv]
  rfl

/-
Soundness of the custom non_nil_and_unique_name validator: when it
returns true, the slice has no nil element and all names are distinct
(also from the accumulator).
-/

theorem uniqueName_sound :
    ∀ (l : List (Option InterfaceConfig)) (seen : List String),
      nonNilAndUniqueName l seen = true →
      none ∉ l ∧
      (∀ ic : InterfaceConfig, some ic ∈ l → ic.name ∉ seen) ∧
      List.Pairwise
        (fun x y => ∀ a b : InterfaceConfig, x = some a → y = some b → a.name ≠ b.name) l
  | [], _, _ => by
      refine ⟨List.not_mem_nil _, ?_, List.Pairwise.nil⟩
      intro ic h
      exact absurd h (List.not_mem_nil _)
  | none :: rest, seen, h => by
      rw [nonNilAndUniqueName] at h
      exact absurd h (by simp)
  | some ic :: rest, seen, h => by
      rw [nonNilAndUniqueName] at h
      by_cases hc : seen.contains ic.name
      · rw [if_pos hc] at h
        exact absurd h (by simp)
      · rw [if_neg hc] at h
        obtain ⟨hnone, hseen, hpw⟩ := uniqueName_sound rest (ic.name :: seen) h
        have hicseen : ic.name ∉ seen := by
          intro hmem
          exact hc (List.elem_iff.mpr hmem)
        refine ⟨?_, ?_, ?_⟩
        · intro hmem
          rcases List.mem_cons.mp hmem with heq | hr
          · exact Option.noConfusion heq
          · exact hnone hr
        · intro ic2 hmem
          rcases List.mem_cons.mp hmem with heq | hr
          · rw [Option.some_inj] at heq
            rw [heq]
            exact hicseen
          · intro hin
            exact hseen ic2 hr (List.mem_cons_of_mem _ hin)
        · refine List.Pairwise.cons ?_ hpw
          intro y hy a b hxa hyb
          rw [Option.some_inj] at hxa
          subst hxa
          intro hnames
          have hbmem : some b ∈ rest := by rw [← hyb]; exact hy
          have := hseen b hbmem
          exact this (by rw [← hnames]; exact List.mem_cons_self _ _)

theorem uniqueName_false_of_none (l : List (Option InterfaceConfig)) (seen : List String)
    (h : none ∈ l) : nonNilAndUniqueName l seen = false := by
  cases hb : nonNilAndUniqueName l seen
  · rfl
  · exact absurd h (uniqueName_sound l seen hb).1

theorem uniqueName_false_of_dup (l : List (Option InterfaceConfig)) (seen : List String)
    (i j : Nat) (hi : i < l.length) (hj : j < l.length) (hij : i ≠ j)
    (a b : InterfaceConfig) (hia : l.get ⟨i, hi⟩ = some a) (hjb : l.get ⟨j, hj⟩ = some b)
    (hn : a.name = b.name) : nonNilAndUniqueName l seen = false := by
  cases hb : nonNilAndUniqueName l seen
  · rfl
  · exfalso
    have hpw := (uniqueName_sound l seen hb).2.2
    rw [List.pairwise_iff_get] at hpw
    rcases Nat.lt_or_ge i j with hlt | hge
    · exact hpw ⟨i, hi⟩ ⟨j, hj⟩ hlt a b hia hjb hn
    · have hlt : j < i := Nat.lt_of_le_of_ne hge (fun he => hij he.symm)
      exact hpw ⟨j, hj⟩ ⟨i, hi⟩ hlt b a hjb hia hn.symm

theorem defaultInterfaceConfig_name (ic : InterfaceConfig) :
    (defaultInterfaceConfig ic).name = ic.name := rfl

/-- C7: for every Config whose Interfaces slice contains a nil element
or two InterfaceConfig entries with the same Name, defaultAndValidate
returns a non-nil error. -/
theorem goRaC7_uniqueNonNil (c : Config) (l : List (Option InterfaceConfig))
    (hl : c.interfaces = some l)
    (h : none ∈ l ∨ ∃ (i j : Nat) (hi : i < l.length) (hj : j < l.length)
        (a b : InterfaceConfig), i ≠ j ∧ l.get ⟨i, hi⟩ = some a ∧ l.get ⟨j, hj⟩ = some b ∧
        a.name = b.name) :
    ∃ es, defaultAndValidate c = Except.error es := by
  apply defaultAndValidate_error_of_validate
  have hl2 := applyDefaults_interfaces c l hl
  set l2 := l.map (Option.map defaultInterfaceConfig) with hl2def
  have hfalse : nonNilAndUniqueName l2 [] = false := by
    rcases h with hnone | ⟨i, j, hi, hj, a, b, hij, hia, hjb, hn⟩
    · exact uniqueName_false_of_none l2 [] (List.mem_map.mpr ⟨none, hnone, rfl⟩)
    · have hi2 : i < l2.length := by rw [hl2def, List.length_map]; exact hi
      have hj2 : j < l2.length := by rw [hl2def, List.length_map]; exact hj
      have hga : l2.get ⟨i, hi2⟩ = some (defaultInterfaceConfig a) := by
        simp only [hl2def, List.get_eq_getElem, List.getElem_map]
        rw [← List.get_eq_getElem l ⟨i, hi⟩, hia]
        rfl
      have hgb : l2.get ⟨j, hj2⟩ = some (defaultInterfaceConfig b) := by
        simp only [hl2def, List.get_eq_getElem, List.getElem_map]
        rw [← List.get_eq_getElem l ⟨j, hj⟩, hjb]
        rfl
      exact uniqueName_false_of_dup l2 [] i j hi2 hj2 hij
        (defaultInterfaceConfig a) (defaultInterfaceConfig b) hga hgb
        (by rw [defaultInterfaceConfig_name, defaultInterfaceConfig_name]; exact hn)
  intro hnil
  unfold validateConfig at hnil
  rw [hl2] at hnil
  simp only [validateInterfaces] at hnil
  rw [if_neg (by simp [hfalse])] at hnil
  exact List.cons_ne_nil _ _ hnil

/-- A concrete input used by the C7 witness: two interfaces named net0. -/
def dupNameIface : InterfaceConfig :=
  { name := "net0", raIntervalMilliseconds := 100, currentHopLimit := 0, managed := false,
    other := false, routerLifetimeSeconds := 0, reachableTimeMilliseconds := 0,
    retransmitTimeMilliseconds := 0, prefixes := none }

def dupNameConfig : Config :=
  { interfaces := some [some dupNameIface, some dupNameIface] }

/-- C7 witness: the duplicate-name configuration is rejected. -/
theorem goRaC7_uniqueNonNil_w :
    ∃ es, defaultAndValidate dupNameConfig = Except.error es :=
  goRaC7_uniqueNonNil dupNameConfig [some dupNameIface, some dupNameIface] rfl
    (Or.inr ⟨0, 1, by decide, by decide, dupNameIface, dupNameIface, by decide, rfl, rfl, rfl⟩)

/-- A configuration whose single interface has interval 0 (below 70). -/
def zeroIntervalIface : InterfaceConfig :=
  { name := "net0", raIntervalMilliseconds := 0, currentHopLimit := 0, managed := false,
    other := false, routerLifetimeSeconds := 0, reachableTimeMilliseconds := 0,
    retransmitTimeMilliseconds := 0, prefixes := none }

def zeroIntervalConfig : Config := { interfaces := some [some zeroIntervalIface] }

/-- C6 counterexample: this interface's RAIntervalMilliseconds is 0,
which is below 70, yet defaultAndValidate accepts the configuration
(the zero is replaced by the default 600000 before validation), so the
claim "non-nil error for every interval below 70" is false. -/
theorem goRaC6_zeroIntervalAccepted :
    zeroIntervalIface.raIntervalMilliseconds < 70 ∧
    zeroIntervalConfig.interfaces = some [some zeroIntervalIface] ∧
    defaultAndValidate zeroIntervalConfig =
      Except.ok { interfaces := some [some
        { zeroIntervalIface with raIntervalMilliseconds := 600000 }] } := by
  refine ⟨by decide, rfl, by decide⟩

/-- C6 amended: an interval of zero is replaced by the default 600000
and accepted; a non-zero interval below 70 or above 1800000 yields a
non-nil error; an interval within [70, 1800000] passes the interval
check. -/
theorem goRaC6_intervalBounds (c : Config) (l : List (Option InterfaceConfig))
    (hl : c.interfaces = some l) (ic : InterfaceConfig) (hm : some ic ∈ l) :
    (ic.raIntervalMilliseconds ≠ 0 →
      (ic.raIntervalMilliseconds < 70 ∨ 1800000 < ic.raIntervalMilliseconds) →
      ∃ es, defaultAndValidate c = Except.error es) ∧
    (∀ path, 70 ≤ ic.raIntervalMilliseconds → ic.raIntervalMilliseconds ≤ 1800000 →
      checkRAInterval path ic.raIntervalMilliseconds = []) ∧
    (ic.raIntervalMilliseconds = 0 →
      (defaultInterfaceConfig ic).raIntervalMilliseconds = 600000) := by
  refine ⟨?_, ?_, ?_⟩
  · intro h0 hout
    apply defaultAndValidate_error_of_validate
    apply validateConfig_ne_nil_of_iface (applyDefaults c)
      (l.map (Option.map defaultInterfaceConfig)) (applyDefaults_interfaces c l hl)
      (defaultInterfaceConfig ic) (List.mem_map.mpr ⟨some ic, hm, rfl⟩)
    intro q
    apply checkIfaceFields_ne_nil_of_interval
    rw [defaultInterfaceConfig_interval_ne_zero ic h0]
    exact checkRAInterval_ne_nil _ _ h0 hout
  · intro path hlo hhi
    exact checkRAInterval_eq_nil path _ hlo hhi
  · intro h0
    unfold defaultInterfaceConfig
    simp only [if_pos h0]

/-- C6 witness: the amended claim at interval 50 (rejected) and at
interval 100 (interval check passes). -/
theorem goRaC6_intervalBounds_w :
    (∃ es, defaultAndValidate
      { interfaces := some [some { dupNameIface with raIntervalMilliseconds := 50 }] } =
        Except.error es) ∧
    checkRAInterval "q" 100 = [] := by
  constructor
  · exact (goRaC6_intervalBounds
      { interfaces := some [some { dupNameIface with raIntervalMilliseconds := 50 }] }
      [some { dupNameIface with raIntervalMilliseconds := 50 }] rfl
      { dupNameIface with raIntervalMilliseconds := 50 } (by decide)).1
      (by decide) (by decide)
  · exact (goRaC6_intervalBounds
      { interfaces := some [some { dupNameIface with raIntervalMilliseconds := 100 }] }
      [some { dupNameIface with raIntervalMilliseconds := 100 }] rfl
      { dupNameIface with raIntervalMilliseconds := 100 } (by decide)).2.1
      "q" (by decide) (by decide)

/-- C8: a PrefixConfig whose preferred lifetime exceeds its valid
lifetime makes defaultAndValidate return a non-nil error, and a pair
with preferred at most valid (both within [0, 4294967295]) passes both
lifetime field checks. -/
theorem goRaC8_lifetimePair (c : Config) (l : List (Option InterfaceConfig))
    (hl : c.interfaces = some l) (ic : InterfaceConfig) (hmi : some ic ∈ l)
    (pl : List (Option PrefixConfig)) (hpl : ic.prefixes = some pl)
    (pc : PrefixConfig) (hmp : some pc ∈ pl) (p v : Int)
    (hp : pc.preferredLifetimeSeconds = some p) (hv : pc.validLifetimeSeconds = some v) :
    (v < p → ∃ es, defaultAndValidate c = Except.error es) ∧
    (∀ path, 0 ≤ p → p ≤ v → v ≤ 4294967295 →
      checkValidLifetime path pc.validLifetimeSeconds = [] ∧
      checkPreferredLifetime path pc.preferredLifetimeSeconds pc.validLifetimeSeconds = []) := by
  constructor
  · intro hvp
    apply defaultAndValidate_error_of_validate
    apply validateConfig_ne_nil_of_iface (applyDefaults c)
      (l.map (Option.map defaultInterfaceConfig)) (applyDefaults_interfaces c l hl)
      (defaultInterfaceConfig ic) (List.mem_map.mpr ⟨some ic, hmi, rfl⟩)
    intro q
    apply checkIfaceFields_ne_nil_of_prefixes
    rw [defaultInterfaceConfig_prefixes ic pl hpl]
    apply checkPrefixesField_ne_nil _ _ (defaultPrefixConfig pc)
      (List.mem_map.mpr ⟨some pc, hmp, rfl⟩)
    intro q2
    apply checkPrefixEntry_ne_nil_of_pref
    rw [defaultPrefixConfig_pref pc p hp, defaultPrefixConfig_valid pc v hv]
    exact checkPreferredLifetime_ne_nil _ p v hvp
  · intro path h0 hpv hub
    rw [hp, hv]
    exact ⟨checkValidLifetime_eq_nil path v (le_trans h0 hpv) hub,
      checkPreferredLifetime_eq_nil path p v h0 hpv⟩

/-- Concrete input for the C8 witness: preferred 700000 exceeds valid
600000 on an otherwise valid prefix. -/
def badLifetimePc : PrefixConfig :=
  { cidrStr := "2001:db8::/64", onLink := true, autonomous := true,
    validLifetimeSeconds := some 600000, preferredLifetimeSeconds := some 700000 }

/-- The good pair (preferred 604800 at most valid 2592000). -/
def goodLifetimePc : PrefixConfig :=
  { cidrStr := "2001:db8::/64", onLink := true, autonomous := true,
    validLifetimeSeconds := some 2592000, preferredLifetimeSeconds := some 604800 }

def badLifetimeIface : InterfaceConfig :=
  { dupNameIface with prefixes := some [some badLifetimePc, some goodLifetimePc] }

def badLifetimeConfig : Config :=
  { interfaces := some [some badLifetimeIface] }

/-- C8 witness: the bad pair is rejected, and the pair (604800, 2592000)
passes both lifetime checks. -/
theorem goRaC8_lifetimePair_w :
    (∃ es, defaultAndValidate badLifetimeConfig = Except.error es) ∧
    (checkValidLifetime "q" goodLifetimePc.validLifetimeSeconds = [] ∧
      checkPreferredLifetime "q" goodLifetimePc.preferredLifetimeSeconds
        goodLifetimePc.validLifetimeSeconds = []) := by
  constructor
  · exact (goRaC8_lifetimePair badLifetimeConfig [some badLifetimeIface] rfl
      badLifetimeIface (by decide) [some badLifetimePc, some goodLifetimePc] rfl
      badLifetimePc (by decide) 700000 600000 rfl rfl).1 (by decide)
  · exact (goRaC8_lifetimePair badLifetimeConfig [some badLifetimeIface] rfl
      badLifetimeIface (by decide) [some badLifetimePc, some goodLifetimePc] rfl
      goodLifetimePc (by decide) 604800 2592000 rfl rfl).2
      "q" (by decide) (by decide) (by decide)

/-- The prefix used twice in the C1 failing input. -/
def c1DupPc : PrefixConfig :=
  { cidrStr := "2001:db8::/64", onLink := true, autonomous := true,
    validLifetimeSeconds := none, preferredLifetimeSeconds := none }

def c1Iface : InterfaceConfig :=
  { name := "net0", raIntervalMilliseconds := 100, currentHopLimit := 0, managed := false,
    other := false, routerLifetimeSeconds := 0, reachableTimeMilliseconds := 0,
    retransmitTimeMilliseconds := 0, prefixes := some [some c1DupPc, some c1DupPc] }

def c1Config : Config := { interfaces := some [some c1Iface] }

/-- C1: the failing input carries the same IPv6 prefix twice; the two
(equal) prefixes overlap each other under netip.Prefix.Overlaps, yet
defaultAndValidate accepts the configuration, because the overlap loop
guards each comparison with p0 != p1 and never compares the two equal
prefix values.  The claim (and the field documentation, which requires
non-overlapping prefixes) demands a non-nil error here. -/
theorem goRaC1_overlapEqualAccepted :
    (∃ p : Cidr, parseCidr c1DupPc.cidrStr = some p ∧ p.overlaps p = true) ∧
    c1Iface.prefixes = some [some c1DupPc, some c1DupPc] ∧
    (∃ c2, defaultAndValidate c1Config = Except.ok c2) := by
  refine ⟨⟨{ addr := 0x20010db8 <<< 96, bits := 64 }, by decide, by decide⟩, rfl, ?_⟩
  exact ⟨applyDefaults c1Config, by decide⟩

/-- C9: the parse functions validate nothing: whenever the decoder
produces a Config, even one defaultAndValidate rejects, each parse
function returns exactly that Config with no error; an error is
returned exactly when decoding (or opening the file) fails. -/
theorem goRaC9_parseNoValidate (c : Config) (e : String)
    (_hbad : ∃ es, defaultAndValidate c = Except.error es) :
    (ParseConfigJSON (Except.ok c) = Except.ok c ∧
     ParseConfigYAML (Except.ok c) = Except.ok c ∧
     ParseConfigYAMLFile (Except.ok (Except.ok c)) = Except.ok c) ∧
    (ParseConfigJSON (Except.error e) = Except.error e ∧
     ParseConfigYAML (Except.error e) = Except.error e ∧
     ParseConfigYAMLFile (Except.error e) = Except.error e ∧
     ParseConfigYAMLFile (Except.ok (Except.error e)) = Except.error e) :=
  ⟨⟨rfl, rfl, rfl⟩, rfl, rfl, rfl, rfl⟩

/-- C9 witness: at the duplicate-name configuration (which the
validator rejects) and a decoder error string. -/
theorem goRaC9_parseNoValidate_w :
    ParseConfigJSON (Except.ok dupNameConfig) = Except.ok dupNameConfig ∧
    ParseConfigYAML (Except.ok dupNameConfig) = Except.ok dupNameConfig ∧
    ParseConfigYAMLFile (Except.error "open failed") = Except.error "open failed" := by
  have h := goRaC9_parseNoValidate dupNameConfig "open failed"
    ⟨[VErr.uniqueNameViolation "interfaces"], by decide⟩
  exact ⟨h.1.1, h.1.2.1, h.2.2.2.1⟩

theorem collectCidrs_single (pc : PrefixConfig) (p : Cidr)
    (h : parseCidr pc.cidrStr = some p) : collectCidrs [some pc] = some [p] := by
  simp only [collectCidrs]
  rw [h]

theorem hasOverlappingPair_single (p : Cidr) : hasOverlappingPair [p] = false := by
  simp [hasOverlappingPair]

theorem parseCidr_ne_empty (s : String) (p : Cidr) (h : parseCidr s = some p) : s ≠ "" := by
  intro he
  rw [he] at h
  exact Option.noConfusion ((rfl : parseCidr "" = none) ▸ h)

theorem cidrv6Ok_parses (s : String) (hs : cidrv6Ok s = true) :
    ∃ p, parseCidr s = some p := by
  cases hps : parseCidr s with
  | none =>
      unfold cidrv6Ok at hs
      rw [hps] at hs
      exact absurd hs (by simp [Option.elim])
  | some p => exact ⟨p, rfl⟩

/-- A configuration that omits the defaulted fields: interval zero, both
lifetime pointers nil. -/
def omittedPc (s : String) : PrefixConfig :=
  { cidrStr := s, onLink := false, autonomous := false,
    validLifetimeSeconds := none, preferredLifetimeSeconds := none }

def omittedIface (nm s : String) : InterfaceConfig :=
  { name := nm, raIntervalMilliseconds := 0, currentHopLimit := 0, managed := false,
    other := false, routerLifetimeSeconds := 0, reachableTimeMilliseconds := 0,
    retransmitTimeMilliseconds := 0, prefixes := some [some (omittedPc s)] }

def omittedConfig (nm s : String) : Config :=
  { interfaces := some [some (omittedIface nm s)] }

/-- The same configuration with the defaults filled in. -/
def filledPc (s : String) : PrefixConfig :=
  { cidrStr := s, onLink := false, autonomous := false,
    validLifetimeSeconds := some 2592000, preferredLifetimeSeconds := some 604800 }

def filledIface (nm s : String) : InterfaceConfig :=
  { name := nm, raIntervalMilliseconds := 600000, currentHopLimit := 0, managed := false,
    other := false, routerLifetimeSeconds := 0, reachableTimeMilliseconds := 0,
    retransmitTimeMilliseconds := 0, prefixes := some [some (filledPc s)] }

def filledConfig (nm s : String) : Config :=
  { interfaces := some [some (filledIface nm s)] }

/-- C10: defaultAndValidate fills defaults before validating: a zero
RAIntervalMilliseconds becomes 600000, nil lifetime pointers become
2592000 and 604800, and a configuration omitting exactly these fields is
accepted with those values instead of being rejected. -/
theorem goRaC10_defaultsFilled (nm s : String) (hn : nm ≠ "") (hs : cidrv6Ok s = true) :
    (∀ ic : InterfaceConfig, ic.raIntervalMilliseconds = 0 →
      (defaultInterfaceConfig ic).raIntervalMilliseconds = 600000) ∧
    (∀ pc : PrefixConfig, pc.validLifetimeSeconds = none →
      (defaultPrefixConfig pc).validLifetimeSeconds = some 2592000) ∧
    (∀ pc : PrefixConfig, pc.preferredLifetimeSeconds = none →
      (defaultPrefixConfig pc).preferredLifetimeSeconds = some 604800) ∧
    defaultAndValidate (omittedConfig nm s) = Except.ok (filledConfig nm s) := by
  obtain ⟨p, hp⟩ := cidrv6Ok_parses s hs
  have hne : s ≠ "" := parseCidr_ne_empty s p hp
  refine ⟨?_, ?_, ?_, ?_⟩
  · intro ic h0
    unfold defaultInterfaceConfig
    simp only [if_pos h0]
  · intro pc h0
    unfold defaultPrefixConfig
    rw [h0]
    rfl
  · intro pc h0
    unfold defaultPrefixConfig
    rw [h0]
    rfl
  · have hd : applyDefaults (omittedConfig nm s) = filledConfig nm s := rfl
    rw [← hd]
    apply defaultAndValidate_ok_of_validate
    rw [hd]
    unfold validateConfig filledConfig
    simp only [validateInterfaces]
    rw [if_pos (by rfl : nonNilAndUniqueName [some (filledIface nm s)] [] = true)]
    unfold checkIfaceElems checkIfaceElems
    rw [List.append_nil]
    unfold checkIfaceFields
    unfold checkName
    rw [if_neg (by simpa [filledIface] using hn)]
    unfold checkPrefixesField
    rw [show (filledIface nm s).prefixes = some [some (filledPc s)] from rfl]
    simp only [Option.getD_some]
    rw [collectCidrs_single (filledPc s) p (by simpa [filledPc] using hp)]
    simp only [checkPrefixesAux]
    rw [if_neg (by simp [hasOverlappingPair_single])]
    unfold checkPrefixElems checkPrefixElems
    rw [List.append_nil]
    unfold checkPrefixEntry
    rw [if_neg (by simpa [filledPc] using hne)]
    rw [if_pos (by simpa [filledPc] using hs)]
    rfl

/-- C10 witness: the omitted-field configuration with name net0 and
prefix 2001:db8::/64 is accepted with the defaults filled in. -/
theorem goRaC10_defaultsFilled_w :
    defaultAndValidate (omittedConfig "net0" "2001:db8::/64") =
      Except.ok (filledConfig "net0" "2001:db8::/64") :=
  (goRaC10_defaultsFilled "net0" "2001:db8::/64" (by decide) (by decide)).2.2.2

/-
Daemon orchestration model

The orchestrator and announcer sources are not part of this tree (only
their test is); the definitions below are modelled from the design
document.  A Daemon holds the list of every socket it ever opened (a
closed socket is marked, never removed — sockets are owned handles and
the design requires each to be closed exactly once), the live set of
announcers and a stopped flag set by shutdown.  Reconciliation, timer
progress and sends are discrete steps; milliseconds are Nat.
-/

/-- Modelled from the spec: the Socket capability (sections 2 and 6):
an owned per-interface transmit handle with a closed observation. -/
structure FakeSock where
  sockIface : String
  closed : Bool
deriving DecidableEq

/-- Modelled from the spec: the Announcer state (section 3): interface
name, current interval (milliseconds), owned socket (index into the
daemon's socket list) and timer phase (milliseconds since the last
scheduling point; a fresh announcer starts at phase 0). -/
structure Announcer where
  annIface : String
  interval : Int
  sockIdx : Nat
  phase : Nat
deriving DecidableEq

/-- Modelled from the spec: the Orchestrator state (sections 2-5): all
sockets ever opened, the live announcer set, and whether the run
context has been cancelled. -/
structure Daemon where
  socks : List FakeSock
  live : List Announcer
  stopped : Bool
deriving DecidableEq

/-- The non-nil interfaces of a validated Config, as handed to the
daemon. -/
def ifacesOf (c : Config) : List InterfaceConfig :=
  (c.interfaces.getD []).filterMap id

def cfgNames (c : Config) : List String :=
  (ifacesOf c).map (fun ic => ic.name)

def findIface (c : Config) (n : String) : Option InterfaceConfig :=
  (ifacesOf c).find? (fun ic => ic.name == n)

def findInterval (c : Config) (n : String) : Option Int :=
  (findIface c n).map (fun ic => ic.raIntervalMilliseconds)

/-- Mark the socket at one index closed. -/
def closeAt : List FakeSock → Nat → List FakeSock
  | [], _ => []
  | sk :: rest, 0 => { sk with closed := true } :: rest
  | sk :: rest, n + 1 => sk :: closeAt rest n

/-- Mark every listed index closed. -/
def closeAll (socks : List FakeSock) (idxs : List Nat) : List FakeSock :=
  idxs.foldl closeAt socks

/-- Open one fresh socket per interface (the fake socket factory of the
test registry never fails). -/
def openSocks (ics : List InterfaceConfig) : List FakeSock :=
  ics.map (fun ic => { sockIface := ic.name, closed := false })

/-- Fresh announcers for the interfaces, owning the sockets appended
starting at index base; a fresh announcer starts with phase 0. -/
def startAnnouncers (base : Nat) : List InterfaceConfig → List Announcer
  | [] => []
  | ic :: rest =>
      { annIface := ic.name, interval := ic.raIntervalMilliseconds,
        sockIdx := base, phase := 0 } :: startAnnouncers (base + 1) rest

/-- The announcers whose interface is absent from the new configuration
give up their socket indices for closing. -/
def removedIdxsOf (d : Daemon) (c : Config) : List Nat :=
  (d.live.filter (fun a => !decide (a.annIface ∈ cfgNames c))).map (fun a => a.sockIdx)

/-- The surviving announcers: untouched when the interval is unchanged,
updated in place (phase kept) when it changed. -/
def keptOf (d : Daemon) (c : Config) : List Announcer :=
  d.live.filterMap (fun a =>
    match findInterval c a.annIface with
    | none => none
    | some i => some (if i = a.interval then a else { a with interval := i }))

/-- The interfaces of the new configuration with no live announcer. -/
def freshOf (d : Daemon) (c : Config) : List InterfaceConfig :=
  (ifacesOf c).filter (fun ic => !decide (ic.name ∈ d.live.map (fun a => a.annIface)))

/-- Modelled from the spec: Reload reconciliation (section 4.1): an
interface only in the live set is stopped and its socket closed; one in
both keeps its announcer untouched when the interval is unchanged and
has the interval updated in place otherwise (phase kept, new interval
effective from the next scheduling decision); one only in the new
configuration gets a fresh socket and announcer. -/
def reconcile (d : Daemon) (c : Config) : Daemon :=
  { socks := closeAll d.socks (removedIdxsOf d c) ++ openSocks (freshOf d c),
    live := keptOf d c ++ startAnnouncers d.socks.length (freshOf d c),
    stopped := d.stopped }

/-- Modelled from the spec: cancellation teardown (section 5): every
live announcer is stopped and its socket closed before Run returns; the
stopped daemon has an empty live set. -/
def shutdown (d : Daemon) : Daemon :=
  { socks := closeAll d.socks (d.live.map (fun a => a.sockIdx)),
    live := [],
    stopped := true }

/-- Modelled from the spec: time progress; every live announcer's timer
phase advances equally. -/
def elapse (d : Daemon) (t : Nat) : Daemon :=
  { d with live := d.live.map (fun a => { a with phase := a.phase + t }) }

/-- An unsolicited send on interface n is possible only while the
daemon is running and an announcer for n is live. -/
def canSend (d : Daemon) (n : String) : Bool :=
  !d.stopped && d.live.any (fun a => a.annIface == n)

/-- Modelled from the spec: a send resets the sender's timer phase. -/
def sendReset (d : Daemon) (n : String) : Daemon :=
  { d with live := d.live.map (fun a =>
      if a.annIface = n then { a with phase := 0 } else a) }

/-- Modelled from the spec: New plus the initial reconciliation done by
Run: no announcer exists before Run; Run's first action reconciles the
empty live set against the initial configuration. -/
def newDaemon (c : Config) : Daemon :=
  reconcile { socks := [], live := [], stopped := false } c

/-- One observable step of the running daemon. -/
inductive DaemonStep : Daemon → Daemon → Prop where
  | reload (c : Config) (d : Daemon) : DaemonStep d (reconcile d c)
  | tick (t : Nat) (d : Daemon) : DaemonStep d (elapse d t)
  | send (n : String) (d : Daemon) (h : canSend d n = true) : DaemonStep d (sendReset d n)

/-- Reachability by observable steps. -/
inductive Reaches : Daemon → Daemon → Prop where
  | refl (d : Daemon) : Reaches d d
  | step (d1 d2 d3 : Daemon) : Reaches d1 d2 → DaemonStep d2 d3 → Reaches d1 d3

/-- Every open socket is owned by a live announcer. -/
def OpenOwned (d : Daemon) : Prop :=
  ∀ (i : Nat), (hi : i < d.socks.length) →
    (d.socks[i]).closed = false → ∃ a, a ∈ d.live ∧ a.sockIdx = i

/-- Structural soundness of a daemon state: open sockets are owned and
every live announcer's socket index is in range. -/
def DaemonWF (d : Daemon) : Prop :=
  OpenOwned d ∧ ∀ a ∈ d.live, a.sockIdx < d.socks.length

/-
Index lemmas about socket closing and announcer creation.
-/

theorem closeAt_length : ∀ (socks : List FakeSock) (j : Nat),
    (closeAt socks j).length = socks.length
  | [], _ => rfl
  | _ :: rest, 0 => rfl
  | _ :: rest, j + 1 => by
      simp only [closeAt, List.length_cons, closeAt_length rest j]

theorem closeAt_get : ∀ (socks : List FakeSock) (j i : Nat),
    (closeAt socks j)[i]? =
      if j = i then (socks[i]?).map (fun sk => { sk with closed := true }) else socks[i]?
  | [], j, i => by
      simp [closeAt]
  | sk :: rest, 0, 0 => by
      simp [closeAt]
  | sk :: rest, 0, i + 1 => by
      simp [closeAt]
  | sk :: rest, j + 1, 0 => by
      simp [closeAt]
  | sk :: rest, j + 1, i + 1 => by
      simp only [closeAt, List.getElem?_cons_succ]
      rw [closeAt_get rest j i]
      by_cases h : j = i
      · rw [if_pos h, if_pos (by omega)]
      · rw [if_neg h, if_neg (by omega)]

theorem closeAll_length : ∀ (idxs : List Nat) (socks : List FakeSock),
    (closeAll socks idxs).length = socks.length
  | [], _ => rfl
  | j :: rest, socks => by
      show (closeAll (closeAt socks j) rest).length = _
      rw [closeAll_length rest (closeAt socks j), closeAt_length]

theorem closeAll_get : ∀ (idxs : List Nat) (socks : List FakeSock) (i : Nat),
    (closeAll socks idxs)[i]? =
      if i ∈ idxs then (socks[i]?).map (fun sk => { sk with closed := true }) else socks[i]?
  | [], socks, i => by
      simp [closeAll]
  | j :: rest, socks, i => by
      show (closeAll (closeAt socks j) rest)[i]? = _
      rw [closeAll_get rest (closeAt socks j) i, closeAt_get socks j i]
      by_cases hmem : i ∈ rest
      · rw [if_pos hmem, if_pos (List.mem_cons_of_mem _ hmem)]
        by_cases hji : j = i
        · rw [if_pos hji]
          cases socks[i]? <;> simp
        · rw [if_neg hji]
      · rw [if_neg hmem]
        by_cases hji : j = i
        · rw [if_pos hji, if_pos (by rw [hji]; exact List.mem_cons_self _ _)]
        · rw [if_neg hji, if_neg (by simp [List.mem_cons, hmem]; exact fun he => hji he.symm)]

theorem closeAll_closed_of_mem (idxs : List Nat) (socks : List FakeSock) (i : Nat)
    (hmem : i ∈ idxs) (sk : FakeSock) (hget : (closeAll socks idxs)[i]? = some sk) :
    sk.closed = true := by
  rw [closeAll_get idxs socks i, if_pos hmem] at hget
  cases hs : socks[i]? with
  | none => rw [hs] at hget; exact Option.noConfusion hget
  | some sk0 =>
      rw [hs] at hget
      simp only [Option.map_some'] at hget
      rw [Option.some_inj] at hget
      rw [← hget]

theorem closeAll_not_mem (idxs : List Nat) (socks : List FakeSock) (i : Nat)
    (hmem : i ∉ idxs) : (closeAll socks idxs)[i]? = socks[i]? := by
  rw [closeAll_get idxs socks i, if_neg hmem]

theorem startAnnouncers_get : ∀ (l : List InterfaceConfig) (base k : Nat),
    (startAnnouncers base l)[k]? = (l[k]?).map (fun ic =>
      { annIface := ic.name, interval := ic.raIntervalMilliseconds,
        sockIdx := base + k, phase := 0 })
  | [], base, k => by simp [startAnnouncers]
  | ic :: rest, base, 0 => by simp [startAnnouncers]
  | ic :: rest, base, k + 1 => by
      simp only [startAnnouncers, List.getElem?_cons_succ]
      rw [startAnnouncers_get rest (base + 1) k]
      cases hr : rest[k]? with
      | none => rfl
      | some ic2 =>
          simp only [Option.map_some', Option.some_inj]
          have harith : base + 1 + k = base + (k + 1) := by omega
          rw [harith]

theorem startAnnouncers_length : ∀ (l : List InterfaceConfig) (base : Nat),
    (startAnnouncers base l).length = l.length
  | [], _ => rfl
  | ic :: rest, base => by
      simp only [startAnnouncers, List.length_cons, startAnnouncers_length rest (base + 1)]

theorem mem_startAnnouncers (a : Announcer) :
    ∀ (l : List InterfaceConfig) (base : Nat), a ∈ startAnnouncers base l →
      ∃ ic k, k < l.length ∧ l[k]? = some ic ∧
        a = { annIface := ic.name, interval := ic.raIntervalMilliseconds,
              sockIdx := base + k, phase := 0 }
  | [], base, h => absurd h (List.not_mem_nil _)
  | ic :: rest, base, h => by
      rcases List.mem_cons.mp h with heq | hr
      · exact ⟨ic, 0, by simp, by simp, by simpa using heq⟩
      · obtain ⟨ic2, k, hk, hget, ha⟩ := mem_startAnnouncers a rest (base + 1) hr
        refine ⟨ic2, k + 1, by simp; omega, by simpa using hget, ?_⟩
        rw [ha]
        have harith : base + 1 + k = base + (k + 1) := by omega
        rw [harith]

theorem openSocks_get (l : List InterfaceConfig) (k : Nat) :
    (openSocks l)[k]? = (l[k]?).map (fun ic => { sockIface := ic.name, closed := false }) := by
  simp [openSocks]

theorem openSocks_length (l : List InterfaceConfig) : (openSocks l).length = l.length := by
  simp [openSocks]

/-
Membership lemmas about reconciliation.
-/

theorem find?_some_of_mem {α : Type} (p : α → Bool) :
    ∀ (l : List α) (x : α), x ∈ l → p x = true → ∃ y, l.find? p = some y ∧ p y = true
  | [], x, hm, _ => absurd hm (List.not_mem_nil _)
  | a :: rest, x, hm, hp => by
      cases hpa : p a with
      | true => exact ⟨a, List.find?_cons_of_pos _ hpa, hpa⟩
      | false =>
          rw [List.find?_cons_of_neg _ (by simp [hpa])]
          rcases List.mem_cons.mp hm with heq | hr
          · rw [heq] at hp
            rw [hpa] at hp
            exact Bool.noConfusion hp
          · exact find?_some_of_mem p rest x hr hp

theorem findIface_of_mem_names (c : Config) (n : String) (h : n ∈ cfgNames c) :
    ∃ ic, findIface c n = some ic ∧ ic.name = n := by
  obtain ⟨ic, hmem, hn⟩ := List.mem_map.mp h
  obtain ⟨y, hy, hpy⟩ := find?_some_of_mem (fun ic2 => ic2.name == n) (ifacesOf c) ic hmem
    (by simp [hn])
  exact ⟨y, hy, by simpa using hpy⟩

theorem findInterval_some_of_mem_names (c : Config) (n : String) (h : n ∈ cfgNames c) :
    ∃ i, findInterval c n = some i := by
  obtain ⟨ic, hic, _⟩ := findIface_of_mem_names c n h
  exact ⟨ic.raIntervalMilliseconds, by rw [findInterval, hic]; rfl⟩

theorem mem_names_of_findInterval (c : Config) (n : String) (i : Int)
    (h : findInterval c n = some i) : n ∈ cfgNames c := by
  unfold findInterval findIface at h
  cases hf : (ifacesOf c).find? (fun ic => ic.name == n) with
  | none => rw [hf] at h; exact Option.noConfusion h
  | some ic =>
      have hmem := List.mem_of_find?_eq_some hf
      have hpy := List.find?_some hf
      have : ic.name = n := by simpa using hpy
      rw [← this]
      exact List.mem_map_of_mem _ hmem

theorem mem_keptOf_update (d : Daemon) (c : Config) (a : Announcer) (i : Int)
    (ha : a ∈ d.live) (hint : findInterval c a.annIface = some i) :
    { a with interval := i } ∈ keptOf d c := by
  apply List.mem_filterMap.mpr
  refine ⟨a, ha, ?_⟩
  simp only [hint]
  by_cases h : i = a.interval
  · rw [if_pos h, h]
  · rw [if_neg h]

theorem mem_keptOf_self (d : Daemon) (c : Config) (a : Announcer)
    (ha : a ∈ d.live) (hint : findInterval c a.annIface = some a.interval) :
    a ∈ keptOf d c := by
  have := mem_keptOf_update d c a a.interval ha hint
  simpa using this

theorem keptOf_src (d : Daemon) (c : Config) (b : Announcer) (hb : b ∈ keptOf d c) :
    ∃ a, a ∈ d.live ∧ a.annIface = b.annIface ∧ a.sockIdx = b.sockIdx ∧
      a.phase = b.phase ∧ ∃ i, findInterval c a.annIface = some i := by
  obtain ⟨a, ha, heq⟩ := List.mem_filterMap.mp hb
  cases hint : findInterval c a.annIface with
  | none => rw [hint] at heq; exact Option.noConfusion heq
  | some i =>
      rw [hint] at heq
      simp only [Option.some_inj] at heq
      refine ⟨a, ha, ?_, ?_, ?_, i, hint⟩ <;>
        · rw [← heq]
          by_cases h : i = a.interval
          · rw [if_pos h]
          · rw [if_neg h]

theorem mem_freshOf (d : Daemon) (c : Config) (ic : InterfaceConfig) :
    ic ∈ freshOf d c ↔
      ic ∈ ifacesOf c ∧ ic.name ∉ d.live.map (fun a => a.annIface) := by
  unfold freshOf
  rw [List.mem_filter]
  simp

theorem mem_removedIdxs (d : Daemon) (c : Config) (a : Announcer)
    (ha : a ∈ d.live) (hn : a.annIface ∉ cfgNames c) :
    a.sockIdx ∈ removedIdxsOf d c := by
  unfold removedIdxsOf
  exact List.mem_map_of_mem _ (List.mem_filter.mpr ⟨ha, by simp [hn]⟩)

theorem removedIdxs_src (d : Daemon) (c : Config) (i : Nat)
    (h : i ∈ removedIdxsOf d c) :
    ∃ a, a ∈ d.live ∧ a.sockIdx = i ∧ a.annIface ∉ cfgNames c := by
  unfold removedIdxsOf at h
  obtain ⟨a, hmem, hi⟩ := List.mem_map.mp h
  have hf := List.mem_filter.mp hmem
  exact ⟨a, hf.1, hi, by simpa using hf.2⟩

/-
Preservation of structural soundness by every step, and the shutdown
closing argument.
-/

theorem reconcile_socks_length (d : Daemon) (c : Config) :
    (reconcile d c).socks.length = d.socks.length + (freshOf d c).length := by
  show (closeAll d.socks (removedIdxsOf d c) ++ openSocks (freshOf d c)).length = _
  rw [List.length_append, closeAll_length, openSocks_length]

theorem reconcile_wf (d : Daemon) (c : Config) (hwf : DaemonWF d) :
    DaemonWF (reconcile d c) := by
  obtain ⟨hopen, hbound⟩ := hwf
  constructor
  · intro i hi hcl
    have hget : (reconcile d c).socks[i]? = some ((reconcile d c).socks[i]) :=
      List.getElem?_eq_getElem hi
    by_cases hlt : i < d.socks.length
    · have hgetL : (reconcile d c).socks[i]? = (closeAll d.socks (removedIdxsOf d c))[i]? := by
        show (closeAll d.socks (removedIdxsOf d c) ++ openSocks (freshOf d c))[i]? = _
        exact List.getElem?_append_left (by rw [closeAll_length]; exact hlt)
      by_cases hrm : i ∈ removedIdxsOf d c
      · have hcontra := closeAll_closed_of_mem _ _ i hrm _ (by rw [← hgetL]; exact hget)
        rw [hcl] at hcontra
        exact Bool.noConfusion hcontra
      · have hgS : d.socks[i]? = some ((reconcile d c).socks[i]) := by
          rw [← closeAll_not_mem (removedIdxsOf d c) d.socks i hrm, ← hgetL]
          exact hget
        have hv : d.socks[i] = (reconcile d c).socks[i] := by
          have h2 : d.socks[i]? = some d.socks[i] := List.getElem?_eq_getElem hlt
          rw [h2] at hgS
          exact Option.some_inj.mp hgS
        obtain ⟨a, hmem, hidx⟩ := hopen i hlt (by rw [hv]; exact hcl)
        by_cases hnm : a.annIface ∈ cfgNames c
        · obtain ⟨iv, hiv⟩ := findInterval_some_of_mem_names c _ hnm
          exact ⟨{ a with interval := iv },
            List.mem_append_left _ (mem_keptOf_update d c a iv hmem hiv), hidx⟩
        · have habs : a.sockIdx ∈ removedIdxsOf d c := mem_removedIdxs d c a hmem hnm
          rw [hidx] at habs
          exact absurd habs hrm
    · have hik : i - d.socks.length < (freshOf d c).length := by
        have hlen := reconcile_socks_length d c
        omega
      obtain ⟨ic, hic⟩ : ∃ ic, (freshOf d c)[i - d.socks.length]? = some ic :=
        ⟨(freshOf d c)[i - d.socks.length], List.getElem?_eq_getElem hik⟩
      have hsg : (startAnnouncers d.socks.length (freshOf d c))[i - d.socks.length]? =
          some { annIface := ic.name, interval := ic.raIntervalMilliseconds,
                 sockIdx := d.socks.length + (i - d.socks.length), phase := 0 } := by
        rw [startAnnouncers_get, hic]
        rfl
      refine ⟨{ annIface := ic.name, interval := ic.raIntervalMilliseconds,
                sockIdx := d.socks.length + (i - d.socks.length), phase := 0 },
        List.mem_append_right _ (List.mem_iff_getElem?.mpr ⟨i - d.socks.length, hsg⟩), by simp; omega⟩
  · intro b hb
    rw [reconcile_socks_length]
    rcases List.mem_append.mp hb with hk | hs
    · obtain ⟨a, ha, _, hsock, _, _⟩ := keptOf_src d c b hk
      have h1 := hbound a ha
      omega
    · obtain ⟨ic, k, hk2, _, hbeq⟩ := mem_startAnnouncers b _ _ hs
      rw [hbeq]
      show d.socks.length + k < d.socks.length + (freshOf d c).length
      omega

theorem elapse_wf (d : Daemon) (t : Nat) (hwf : DaemonWF d) : DaemonWF (elapse d t) := by
  obtain ⟨hopen, hbound⟩ := hwf
  constructor
  · intro i hi hcl
    obtain ⟨a, ha, hidx⟩ := hopen i hi hcl
    exact ⟨{ a with phase := a.phase + t }, List.mem_map_of_mem _ ha, hidx⟩
  · intro b hb
    obtain ⟨a, ha, heq⟩ := List.mem_map.mp hb
    rw [← heq]
    exact hbound a ha

theorem sendReset_wf (d : Daemon) (n : String) (hwf : DaemonWF d) :
    DaemonWF (sendReset d n) := by
  obtain ⟨hopen, hbound⟩ := hwf
  constructor
  · intro i hi hcl
    obtain ⟨a, ha, hidx⟩ := hopen i hi hcl
    refine ⟨if a.annIface = n then { a with phase := 0 } else a,
      List.mem_map_of_mem _ ha, ?_⟩
    by_cases h : a.annIface = n
    · rw [if_pos h]; exact hidx
    · rw [if_neg h]; exact hidx
  · intro b hb
    obtain ⟨a, ha, heq⟩ := List.mem_map.mp hb
    have h1 := hbound a ha
    rw [← heq]
    by_cases h : a.annIface = n
    · rw [if_pos h]; exact h1
    · rw [if_neg h]; exact h1

theorem step_wf (d1 d2 : Daemon) (h : DaemonStep d1 d2) (hwf : DaemonWF d1) : DaemonWF d2 := by
  cases h with
  | reload c d => exact reconcile_wf d1 c hwf
  | tick t d => exact elapse_wf d1 t hwf
  | send n d hc => exact sendReset_wf d1 n hwf

theorem reaches_wf (d1 d2 : Daemon) (h : Reaches d1 d2) (hwf : DaemonWF d1) : DaemonWF d2 := by
  induction h with
  | refl => exact hwf
  | step b c hr hs ih => exact step_wf b c hs ih

theorem wf_empty : DaemonWF { socks := [], live := [], stopped := false } := by
  constructor
  · intro i hi
    simp at hi
  · intro a ha
    exact absurd ha (List.not_mem_nil _)

theorem wf_newDaemon (c : Config) : DaemonWF (newDaemon c) :=
  reconcile_wf _ c wf_empty

theorem shutdown_socks_closed (d : Daemon) (hwf : DaemonWF d) :
    ∀ sk ∈ (shutdown d).socks, sk.closed = true := by
  intro sk hmem
  obtain ⟨i, hget0⟩ := List.getElem?_of_mem hmem
  have hget : (closeAll d.socks (d.live.map (fun a => a.sockIdx)))[i]? = some sk := hget0
  by_cases hmm : i ∈ d.live.map (fun a => a.sockIdx)
  · exact closeAll_closed_of_mem _ _ i hmm sk hget
  · rw [closeAll_not_mem _ _ i hmm] at hget
    cases hcl : sk.closed with
    | true => rfl
    | false =>
        exfalso
        have hi : i < d.socks.length := by
          by_contra hge
          rw [List.getElem?_eq_none (by omega)] at hget
          exact Option.noConfusion hget
        have hvv : d.socks[i] = sk := by
          have h2 : d.socks[i]? = some d.socks[i] := List.getElem?_eq_getElem hi
          rw [h2] at hget
          exact Option.some_inj.mp hget
        obtain ⟨a, ha, hidx⟩ := hwf.1 i hi (by rw [hvv]; exact hcl)
        apply hmm
        rw [← hidx]
        exact List.mem_map_of_mem _ ha

theorem step_stopped (d1 d2 : Daemon) (h : DaemonStep d1 d2) (hs : d1.stopped = true) :
    d2.stopped = true := by
  cases h with
  | reload c d => exact hs
  | tick t d => exact hs
  | send n d hc =>
      exfalso
      unfold canSend at hc
      rw [hs] at hc
      simp at hc

theorem reaches_stopped (d1 d2 : Daemon) (h : Reaches d1 d2) (hs : d1.stopped = true) :
    d2.stopped = true := by
  induction h with
  | refl => exact hs
  | step b c hr hstep ih => exact step_stopped b c hstep ih

/-- C2: once the run context is cancelled, every socket the daemon ever
opened — through the initial configuration or any sequence of reloads
and other steps — reports closed, the live set is empty, no interface
can send, and nothing reachable after the teardown can send either
(Run returns only the post-teardown state). -/
theorem goRaC2_shutdownClosesAll (c0 : Config) (d : Daemon)
    (h : Reaches (newDaemon c0) d) :
    (∀ sk ∈ (shutdown d).socks, sk.closed = true) ∧
    (shutdown d).live = [] ∧
    (∀ n, canSend (shutdown d) n = false) ∧
    (∀ d2, Reaches (shutdown d) d2 → ∀ n, canSend d2 n = false) := by
  have hwf := reaches_wf _ _ h (wf_newDaemon c0)
  refine ⟨shutdown_socks_closed d hwf, rfl, fun n => rfl, ?_⟩
  intro d2 h2 n
  have hstop : d2.stopped = true := reaches_stopped _ _ h2 rfl
  unfold canSend
  rw [hstop]
  rfl

/-- The two-interface configuration of the reference scenario. -/
def net1Iface : InterfaceConfig := { dupNameIface with name := "net1" }

def twoIfaceConfig : Config :=
  { interfaces := some [some dupNameIface, some net1Iface] }

/-- The same with net1 removed. -/
def oneIfaceConfig : Config := { interfaces := some [some dupNameIface] }

/-- C2 witness: after starting both interfaces and reloading net1 away,
cancellation closes every socket ever opened. -/
theorem goRaC2_shutdownClosesAll_w :
    (∀ sk ∈ (shutdown (reconcile (newDaemon twoIfaceConfig) oneIfaceConfig)).socks,
      sk.closed = true) ∧
    (shutdown (reconcile (newDaemon twoIfaceConfig) oneIfaceConfig)).live = [] ∧
    (∀ n, canSend (shutdown (reconcile (newDaemon twoIfaceConfig) oneIfaceConfig)) n = false) ∧
    (∀ d2, Reaches (shutdown (reconcile (newDaemon twoIfaceConfig) oneIfaceConfig)) d2 →
      ∀ n, canSend d2 n = false) :=
  goRaC2_shutdownClosesAll twoIfaceConfig
    (reconcile (newDaemon twoIfaceConfig) oneIfaceConfig)
    (Reaches.step _ _ _ (Reaches.refl _) (DaemonStep.reload oneIfaceConfig _))

/-- C3: after a reload whose configuration omits a live interface, that
interface's socket reports closed and it can send nothing further,
while every interface present with an unchanged interval keeps its
announcer — interval and timer phase — exactly as it was. -/
theorem goRaC3_reloadRemoves (d : Daemon) (c : Config) (hwf : DaemonWF d)
    (a : Announcer) (ha : a ∈ d.live) (habs : a.annIface ∉ cfgNames c) :
    (∃ sk, (reconcile d c).socks[a.sockIdx]? = some sk ∧ sk.closed = true) ∧
    canSend (reconcile d c) a.annIface = false ∧
    (∀ b ∈ d.live, findInterval c b.annIface = some b.interval →
      b ∈ (reconcile d c).live) := by
  have hidx : a.sockIdx < d.socks.length := hwf.2 a ha
  have hrm : a.sockIdx ∈ removedIdxsOf d c := mem_removedIdxs d c a ha habs
  refine ⟨?_, ?_, ?_⟩
  · have hsome : d.socks[a.sockIdx]? = some d.socks[a.sockIdx] :=
      List.getElem?_eq_getElem hidx
    refine ⟨{ d.socks[a.sockIdx] with closed := true }, ?_, rfl⟩
    show (closeAll d.socks (removedIdxsOf d c) ++ openSocks (freshOf d c))[a.sockIdx]? = _
    rw [List.getElem?_append_left (by rw [closeAll_length]; exact hidx),
        closeAll_get, if_pos hrm, hsome]
    rfl
  · have hany : (reconcile d c).live.any (fun b => b.annIface == a.annIface) = false := by
      rw [List.any_eq_false]
      intro b hb
      simp only [beq_iff_eq]
      rcases List.mem_append.mp hb with hk | hs
      · obtain ⟨a2, _, hname, _, _, i, hfi⟩ := keptOf_src d c b hk
        intro heq
        apply habs
        rw [← heq, ← hname]
        exact mem_names_of_findInterval c _ i hfi
      · obtain ⟨ic, k, _, hgk, hbeq⟩ := mem_startAnnouncers b _ _ hs
        intro heq
        have hicmem : ic ∈ freshOf d c := List.mem_iff_getElem?.mpr ⟨k, hgk⟩
        apply ((mem_freshOf d c ic).mp hicmem).2
        have hnm : ic.name = a.annIface := by rw [← heq, hbeq]
        rw [hnm]
        exact List.mem_map_of_mem _ ha
    unfold canSend
    rw [hany, Bool.and_false]
  · intro b hb hbint
    exact List.mem_append_left _ (mem_keptOf_self d c b hb hbint)

/-- The daemon as started on the two-interface configuration. -/
def twoIfaceDaemon : Daemon := newDaemon twoIfaceConfig

/-- The live net1 announcer of that daemon. -/
def net1Announcer : Announcer :=
  { annIface := "net1", interval := 100, sockIdx := 1, phase := 0 }

/-- C3 witness: reloading the one-interface configuration closes net1's
socket, stops its sends, and keeps net0's announcer untouched. -/
theorem goRaC3_reloadRemoves_w :
    (∃ sk, (reconcile twoIfaceDaemon oneIfaceConfig).socks[net1Announcer.sockIdx]? =
      some sk ∧ sk.closed = true) ∧
    canSend (reconcile twoIfaceDaemon oneIfaceConfig) net1Announcer.annIface = false ∧
    (∀ b ∈ twoIfaceDaemon.live, findInterval oneIfaceConfig b.annIface = some b.interval →
      b ∈ (reconcile twoIfaceDaemon oneIfaceConfig).live) :=
  goRaC3_reloadRemoves twoIfaceDaemon oneIfaceConfig (wf_newDaemon twoIfaceConfig)
    net1Announcer (by decide) (by decide)

/-- C4: a reload that keeps the interface set and changes only the
target interface's interval leaves the socket list untouched (no open,
no close), leaves every other announcer exactly as it was — same
interval, same timer phase — and updates the target's interval in
place, effective for its next scheduling decision. -/
theorem goRaC4_intervalIsolated (d : Daemon) (c : Config) (tgt : String) (newI : Int)
    (h1 : ∀ a ∈ d.live, a.annIface ∈ cfgNames c)
    (h2 : ∀ ic ∈ ifacesOf c, ic.name ∈ d.live.map (fun a => a.annIface))
    (h3 : ∀ a ∈ d.live, a.annIface ≠ tgt → findInterval c a.annIface = some a.interval)
    (h4 : ∀ a ∈ d.live, a.annIface = tgt → findInterval c a.annIface = some newI) :
    (reconcile d c).socks = d.socks ∧
    (∀ a ∈ d.live, a.annIface ≠ tgt → a ∈ (reconcile d c).live) ∧
    (∀ a ∈ d.live, a.annIface = tgt → { a with interval := newI } ∈ (reconcile d c).live) := by
  have hrm : removedIdxsOf d c = [] := by
    unfold removedIdxsOf
    rw [List.filter_eq_nil_iff.mpr (fun a ha => by simp [h1 a ha])]
    rfl
  have hfr : freshOf d c = [] := by
    unfold freshOf
    exact List.filter_eq_nil_iff.mpr (fun ic hic => by simp [h2 ic hic])
  refine ⟨?_, ?_, ?_⟩
  · show closeAll d.socks (removedIdxsOf d c) ++ openSocks (freshOf d c) = d.socks
    rw [hrm, hfr]
    exact List.append_nil _
  · intro a ha hne
    exact List.mem_append_left _ (mem_keptOf_self d c a ha (h3 a ha hne))
  · intro a ha heq
    exact List.mem_append_left _ (mem_keptOf_update d c a newI ha (h4 a ha heq))

/-- The two-interface configuration with net1 retuned to 200 ms. -/
def retunedConfig : Config :=
  { interfaces := some [some dupNameIface,
      some { net1Iface with raIntervalMilliseconds := 200 }] }

/-- C4 witness: retuning net1 to 200 ms keeps the sockets untouched,
keeps net0's announcer (with its phase) as it was, and updates net1's
interval in place. -/
theorem goRaC4_intervalIsolated_w :
    (reconcile twoIfaceDaemon retunedConfig).socks = twoIfaceDaemon.socks ∧
    (∀ a ∈ twoIfaceDaemon.live, a.annIface ≠ "net1" →
      a ∈ (reconcile twoIfaceDaemon retunedConfig).live) ∧
    (∀ a ∈ twoIfaceDaemon.live, a.annIface = "net1" →
      { a with interval := 200 } ∈ (reconcile twoIfaceDaemon retunedConfig).live) :=
  goRaC4_intervalIsolated twoIfaceDaemon retunedConfig "net1" 200
    (by decide) (by decide) (by decide) (by decide)

/-- Modelled from the spec: the Announcer send schedule (section 4.2):
the first unsolicited send happens one full interval after the start of
the loop and each subsequent send exactly one interval after the
previous one. -/
def Announcer.sendTime (a : Announcer) (start : Nat) (k : Nat) : Nat :=
  start + (k + 1) * a.interval.toNat

/-- C5: for an announcer started against an interface configuration,
the gap between any two consecutive unsolicited sends equals the
configured interval — in particular it is within the 5 ms margin — for
every pair of consecutive sends. -/
theorem goRaC5_announcerCadence (l : List InterfaceConfig) (base : Nat) (a : Announcer)
    (_h : a ∈ startAnnouncers base l) (start k : Nat) :
    a.sendTime start (k + 1) - a.sendTime start k = a.interval.toNat ∧
    a.sendTime start (k + 1) - a.sendTime start k ≤ a.interval.toNat + 5 ∧
    a.interval.toNat ≤ (a.sendTime start (k + 1) - a.sendTime start k) + 5 := by
  have hmul : (k + 1 + 1) * a.interval.toNat =
      (k + 1) * a.interval.toNat + a.interval.toNat := by
    rw [Nat.succ_mul]
  unfold Announcer.sendTime
  rw [hmul]
  refine ⟨by omega, by omega, by omega⟩

/-- C5 witness: the net0 announcer of the reference scenario, first
three gaps. -/
theorem goRaC5_announcerCadence_w :
    ({ annIface := "net0", interval := 100, sockIdx := 0,
       phase := 0 : Announcer }.sendTime 0 1 -
      { annIface := "net0", interval := 100, sockIdx := 0,
        phase := 0 : Announcer }.sendTime 0 0 = (100 : Int).toNat) ∧
    ({ annIface := "net0", interval := 100, sockIdx := 0,
       phase := 0 : Announcer }.sendTime 0 1 -
      { annIface := "net0", interval := 100, sockIdx := 0,
        phase := 0 : Announcer }.sendTime 0 0 ≤ (100 : Int).toNat + 5) ∧
    ((100 : Int).toNat ≤
      ({ annIface := "net0", interval := 100, sockIdx := 0,
         phase := 0 : Announcer }.sendTime 0 1 -
        { annIface := "net0", interval := 100, sockIdx := 0,
          phase := 0 : Announcer }.sendTime 0 0) + 5) :=
  goRaC5_announcerCadence [dupNameIface] 0
    { annIface := "net0", interval := 100, sockIdx := 0, phase := 0 }
    (by decide) 0 0
